import Mathlib

/-!
# Verification of pgcopydb work-directory, snapshot and summary-file logic

Shallow embedding of `src/bin/pgcopydb/copydb.c` and
`src/bin/pgcopydb/summary.c`. File contents are Lean `String`s, the
filesystem is modelled by explicit existence flags or `Option String`
contents, machine integers are `Nat`/`Int` with explicit two's-complement
reinterpretation where the C code mixes signedness in `printf` conversions.
Helper routines from the repository that are not part of the provided
sources (`splitLines`, `stringToInt`, `stringToUInt32`, `stringToUInt64`)
are modelled from the specification and marked as such.
-/

namespace Pgcopydb

/-! ## Decimal text: the printf side and the parsing side -/

/-- Digit accumulator for decimal printing, with explicit fuel so that the
definition is structurally recursive (the fuel is always sufficient). This
models the C library's `printf` decimal conversions used by `sformat` and
`appendPQExpBuffer`. -/
def decimalDigitsAux : Nat → Nat → List Char → List Char
  | 0, _, acc => acc
  | fuel + 1, n, acc =>
      let d := Nat.digitChar (n % 10)
      if n < 10 then d :: acc else decimalDigitsAux fuel (n / 10) (d :: acc)

/-- The decimal digit list of a natural number, most significant first. -/
def natDecimal (n : Nat) : List Char :=
  decimalDigitsAux (n + 1) n []

/-- Decimal text of a nonnegative value, as printed by `%u` / `%lld` on a
nonnegative argument. -/
def natDecimalStr (n : Nat) : String :=
  String.mk (natDecimal n)

/-- Decimal digit list of an integer: a leading minus sign for negative
values, as printed by `%d` / `%lld`. -/
def intDecimal (i : Int) : List Char :=
  if i < 0 then '-' :: natDecimal i.natAbs else natDecimal i.toNat

/-- Decimal text of an integer, as printed by `%d` / `%lld`. -/
def intDecimalStr (i : Int) : String :=
  String.mk (intDecimal i)

/-- Reinterpretation of a `uint32_t` value as the `int` that `%d` prints for
it (two's complement). -/
def int32OfUInt32 (v : Nat) : Int :=
  if v < 2 ^ 31 then (v : Int) else (v : Int) - 2 ^ 32

/-- Reinterpretation of a `uint64_t` value as the `long long` that `%lld`
prints for it (two's complement). -/
def int64OfUInt64 (v : Nat) : Int :=
  if v < 2 ^ 63 then (v : Int) else (v : Int) - 2 ^ 64

/-- Numeric value of one decimal digit character. -/
def charToDigit (c : Char) : Nat := c.toNat - 48

/-- Base-10 value of a digit list, most significant first, starting from a
seed value (the folding state of a decimal scanner). -/
def digitsValFrom (v : Nat) (cs : List Char) : Nat :=
  cs.foldl (fun acc c => 10 * acc + charToDigit c) v

/-- Base-10 value of a digit list, most significant first. -/
def digitsVal (cs : List Char) : Nat := digitsValFrom 0 cs

/-- A nonempty all-digit character list. -/
def isDigits (cs : List Char) : Bool :=
  !cs.isEmpty && cs.all (fun c => c.isDigit)

/-- Modelled from the spec: `stringToUInt32` from the repository's string
utilities (not under `src/`). It parses a whole string as a base-10 unsigned
value and fails on any non-numeric content or any value that does not fit in
32 bits. -/
def stringToUInt32 (s : String) : Option Nat :=
  if isDigits s.data = true ∧ digitsVal s.data < 2 ^ 32 then some (digitsVal s.data)
  else none

/-- Modelled from the spec: `stringToUInt64` from the repository's string
utilities (not under `src/`). It parses a whole string as a base-10 unsigned
value and fails on any non-numeric content or any value that does not fit in
64 bits. -/
def stringToUInt64 (s : String) : Option Nat :=
  if isDigits s.data = true ∧ digitsVal s.data < 2 ^ 64 then some (digitsVal s.data)
  else none

/-- Sign scanning for a base-10 signed parse: an optional leading minus. -/
def parseSign (cs : List Char) : Bool × List Char :=
  match cs with
  | c :: rest => if c = '-' then (true, rest) else (false, cs)
  | [] => (false, cs)

/-- Modelled from the spec: `stringToInt` from the repository's string
utilities (not under `src/`). It parses a whole string as a base-10 signed
value and fails on any non-numeric content or any value outside the range of
a 32-bit `int`. -/
def stringToInt (s : String) : Option Int :=
  let sign := parseSign s.data
  if isDigits sign.2 = true ∧
      (if sign.1 then (digitsVal sign.2 : Int) ≤ 2 ^ 31 else (digitsVal sign.2 : Int) ≤ 2 ^ 31 - 1) then
    some (if sign.1 then -(digitsVal sign.2 : Int) else (digitsVal sign.2 : Int))
  else none

/-- Character-list core of `splitLines`: every LF ends a line, and a final
segment without a terminating LF is a line only when it is nonempty. -/
def splitLinesList : List Char → List (List Char)
  | [] => []
  | c :: cs =>
      if c = '\n' then [] :: splitLinesList cs
      else
        match splitLinesList cs with
        | [] => [[c]]
        | l :: ls => (c :: l) :: ls

/-- Modelled from the spec: `splitLines` from the repository's string
utilities (not under `src/`). Summary files are line-oriented and
LF-terminated, so the contents are split at each LF and a trailing empty
segment after the final LF is not a line. -/
def splitLines (s : String) : List String :=
  (splitLinesList s.data).map String.mk

/-! ## Work directory: `copydb_inspect_workdir` and `copydb_init_workdir` -/

/-- The existence flags of the work-directory entries that
`copydb_inspect_workdir` and `copydb_init_workdir` consult. Directory and
file paths are fixed by `copydb_prepare_filepaths`, so each path is
represented by one flag. `pidfileIsLive` models the happy path of
`read_pidfile`: the pidfile exists and names a currently running process. -/
structure WorkDirFS where
  topdirExists : Bool
  pidfileIsLive : Bool
  schemadirExists : Bool
  rundirExists : Bool
  tbldirExists : Bool
  idxdirExists : Bool
  preDataDumpFile : Bool
  postDataDumpFile : Bool
  preDataRestoreFile : Bool
  postDataRestoreFile : Bool
  tablesDoneFile : Bool
  indexesDoneFile : Bool
  sequencesDoneFile : Bool
  blobsDoneFile : Bool
deriving DecidableEq

/-- The `DirectoryState` struct filled in by `copydb_inspect_workdir`. -/
structure DirectoryState where
  directoryExists : Bool
  directoryIsReady : Bool
  schemaDumpIsDone : Bool
  schemaPreDataHasBeenRestored : Bool
  schemaPostDataHasBeenRestored : Bool
  tableCopyIsDone : Bool
  indexCopyIsDone : Bool
  sequenceCopyIsDone : Bool
  blobsCopyIsDone : Bool
  allDone : Bool
deriving DecidableEq

/-- A zero-initialized `DirectoryState`, as embedded in a fresh
`CopyDataSpec`. -/
def DirectoryState.initial : DirectoryState :=
  ⟨false, false, false, false, false, false, false, false, false, false⟩

/-- `copydb_inspect_workdir`: fill the `DirectoryState` from the on-disk
markers. The function never fails; it returns the updated state. -/
def copydb_inspect_workdir (fs : WorkDirFS) (dirState : DirectoryState) : DirectoryState :=
  let d := { dirState with directoryExists := fs.topdirExists }
  if fs.topdirExists = false then d
  else
    let foundAllComponents :=
      fs.schemadirExists && fs.rundirExists && fs.tbldirExists && fs.idxdirExists
    if foundAllComponents = false then { d with directoryIsReady := false }
    else
      let schemaDumpIsDone := fs.preDataDumpFile && fs.postDataDumpFile
      { d with
        schemaDumpIsDone := schemaDumpIsDone
        schemaPreDataHasBeenRestored := fs.preDataRestoreFile
        schemaPostDataHasBeenRestored := fs.postDataRestoreFile
        tableCopyIsDone := fs.tablesDoneFile
        indexCopyIsDone := fs.indexesDoneFile
        sequenceCopyIsDone := fs.sequencesDoneFile
        blobsCopyIsDone := fs.blobsDoneFile
        allDone :=
          schemaDumpIsDone &&
          fs.preDataRestoreFile &&
          fs.postDataRestoreFile &&
          fs.tablesDoneFile &&
          fs.indexesDoneFile &&
          fs.sequencesDoneFile &&
          fs.blobsDoneFile }

/-- Outcome of the startup decision in `copydb_init_workdir`: the three
`log_fatal`/`return false` exits, or proceeding (with or without removing
the directory first). -/
inductive InitWorkdirOutcome
  | alreadyRunning
  | nothingToDo
  | needsResumeOrRestart
  | proceed (removeDir : Bool)
deriving DecidableEq

/-- A failing outcome of `copydb_init_workdir` (a `false` return). -/
def InitWorkdirOutcome.isFailure : InitWorkdirOutcome → Bool
  | .proceed _ => false
  | _ => true

/-- `copydb_init_workdir`, with `copydb_prepare_filepaths` and the directory
creation steps abstracted away (path preparation only fails on environment
lookup, and the creation steps happen after every decision this development
is about). Returns the decision outcome together with the inspected
`DirectoryState`. -/
def copydb_init_workdir (fs : WorkDirFS) (dirState : DirectoryState)
    (restart resume : Bool) : InitWorkdirOutcome × DirectoryState :=
  if fs.topdirExists && fs.pidfileIsLive then (.alreadyRunning, dirState)
  else if restart then (.proceed true, dirState)
  else
    let d := copydb_inspect_workdir fs dirState
    if d.directoryExists then
      if d.schemaDumpIsDone = false then (.proceed false, d)
      else if resume then (.proceed false, d)
      else if d.allDone then (.nothingToDo, d)
      else if resume = false then (.needsResumeOrRestart, d)
      else (.proceed false, d)
    else (.proceed false, d)

/-! ## Snapshot manager: `copydb_export_snapshot`, `copydb_set_snapshot`,
`copydb_prepare_snapshot` -/

/-- Transaction isolation levels passed to `pgsql_set_transaction`. -/
inductive IsolationLevel
  | serializable
  | repeatableRead
deriving DecidableEq

/-- The `TransactionSnapshot` state progression of `copydb.c`. -/
inductive SnapshotState
  | exported
  | snapshotSet
  | notConsistent
  | skipped
  | closed
deriving DecidableEq

/-- One call into the database client, in the order the snapshot functions
issue them. -/
inductive PgAction
  | init
  | beginTx
  | setTransaction (level : IsolationLevel) (readOnly deferrable : Bool)
  | exportSnapshot
  | setSnapshot
  | setGucs
  | finish
deriving DecidableEq

/-- Whether an action is a `pgsql_set_transaction` call. -/
def PgAction.isSetTransaction : PgAction → Bool
  | .setTransaction _ _ _ => true
  | _ => false

/-- Success or failure of each database-client primitive, the only
environment the snapshot functions depend on. -/
structure PgEnv where
  initOk : Bool
  beginOk : Bool
  setTransactionOk : Bool
  exportSnapshotOk : Bool
  setSnapshotOk : Bool
  setGucsOk : Bool
  writeFileOk : Bool
deriving DecidableEq

/-- Result of one snapshot-manager function: the boolean return value, the
database-client calls it issued in order, and the `state` field it assigned
(`none` when it returned before any assignment). -/
structure SnapshotCallResult where
  ok : Bool
  trace : List PgAction
  state : Option SnapshotState
deriving DecidableEq

/-- `copydb_export_snapshot`: begin a serializable read-write deferrable
transaction, then export the snapshot. -/
def copydb_export_snapshot (env : PgEnv) : SnapshotCallResult :=
  if env.initOk = false then ⟨false, [.init], none⟩
  else if env.beginOk = false then ⟨false, [.init, .beginTx], none⟩
  else if env.setTransactionOk = false then
    ⟨false, [.init, .beginTx, .setTransaction .serializable false true, .finish], none⟩
  else if env.exportSnapshotOk = false then
    ⟨false, [.init, .beginTx, .setTransaction .serializable false true, .exportSnapshot,
             .finish], none⟩
  else
    ⟨true, [.init, .beginTx, .setTransaction .serializable false true, .exportSnapshot],
     some .exported⟩

/-- `copydb_set_snapshot`: begin a transaction and re-use an existing
snapshot; in non-consistent mode skip the isolation and snapshot steps. -/
def copydb_set_snapshot (env : PgEnv) (consistent : Bool) : SnapshotCallResult :=
  if env.initOk = false then ⟨false, [.init], none⟩
  else if env.beginOk = false then ⟨false, [.init, .beginTx], none⟩
  else if consistent then
    if env.setTransactionOk = false then
      ⟨false, [.init, .beginTx, .setTransaction .repeatableRead false true, .finish], none⟩
    else if env.setSnapshotOk = false then
      ⟨false, [.init, .beginTx, .setTransaction .repeatableRead false true, .setSnapshot,
               .finish], none⟩
    else if env.setGucsOk = false then
      ⟨false, [.init, .beginTx, .setTransaction .repeatableRead false true, .setSnapshot,
               .setGucs], some .snapshotSet⟩
    else
      ⟨true, [.init, .beginTx, .setTransaction .repeatableRead false true, .setSnapshot,
              .setGucs], some .snapshotSet⟩
  else
    if env.setGucsOk = false then ⟨false, [.init, .beginTx, .setGucs], some .notConsistent⟩
    else ⟨true, [.init, .beginTx, .setGucs], some .notConsistent⟩

/-- `copydb_prepare_snapshot`: nothing to do under `--not-consistent`;
otherwise export a fresh snapshot or re-use the given one, persist it to the
`snapshot` file, and set the source GUC values. `snapshotGiven` is whether
`sourceSnapshot->snapshot` is a nonempty buffer. -/
def copydb_prepare_snapshot (env : PgEnv) (consistent snapshotGiven : Bool) :
    SnapshotCallResult :=
  if consistent = false then ⟨true, [], some .skipped⟩
  else
    let r := if snapshotGiven = false then copydb_export_snapshot env
             else copydb_set_snapshot env true
    if r.ok = false then r
    else if env.writeFileOk = false then ⟨false, r.trace, r.state⟩
    else if env.setGucsOk = false then ⟨false, r.trace ++ [.setGucs], r.state⟩
    else ⟨true, r.trace ++ [.setGucs], r.state⟩

/-! ## Source tables, table specs and the partition COPY query -/

/-- One index attached to a table, restricted to the two fields that
`create_table_index_file` and `read_table_index_file` handle. Both oids are
`uint32_t` (`constraintOid` is 0 when the index backs no constraint). -/
structure SourceIndex where
  indexOid : Nat
  constraintOid : Nat
deriving DecidableEq

/-- One entry of a table's `partsArray`, as consumed by
`copydb_init_table_specs`: the partition count and the inclusive `BETWEEN`
bounds (64-bit signed values printed with `%lld`). -/
structure SourceTableParts where
  partCount : Nat
  min : Int
  max : Int
deriving DecidableEq

/-- The fields of `SourceTable` that the functions under verification read:
identification, the partition split data, and the first-index list
(the `firstIndex` linked list is modelled as a Lean list). -/
structure SourceTable where
  oid : Nat
  nspname : String
  relname : String
  partKey : String
  partsArray : List SourceTableParts
  firstIndex : List SourceIndex
deriving DecidableEq

/-- The partial-COPY fields of `CopyTableDataSpec.part`. -/
structure CopyTableDataPartSpec where
  partNumber : Nat
  partCount : Nat
  min : Int
  max : Int
  partKey : String
  copyQuery : String
deriving DecidableEq

/-- The fields of `CopyTableDataSpec` that `copydb_init_table_specs`
computes and the claims mention: the qualified name and, for a partial
COPY, the partition spec. `part = none` models the full-table COPY case
where the `part` member stays zero-initialized. -/
structure CopyTableDataSpec where
  qname : String
  part : Option CopyTableDataPartSpec
deriving DecidableEq

/-- `copydb_init_table_specs`: compute the qualified name, and for a table
with at least one partition fill in the partition bounds and the COPY
source expression. Reading `partsArray.array[partNumber]` past the array is
undefined behaviour in C and is modelled as `none`; the `partNumber > 0`
case without partitions is the BUG error return. Path bookkeeping and
snapshot copying are not modelled. -/
def copydb_init_table_specs (source : SourceTable) (partNumber : Nat) :
    Option CopyTableDataSpec :=
  let qname := "\"" ++ source.nspname ++ "\".\"" ++ source.relname ++ "\""
  if 1 ≤ source.partsArray.length then
    if hp : partNumber < source.partsArray.length then
      let p := source.partsArray.get ⟨partNumber, hp⟩
      some { qname := qname
             part := some
               { partNumber := partNumber
                 partCount := p.partCount
                 min := p.min
                 max := p.max
                 partKey := source.partKey
                 copyQuery :=
                   "(SELECT * FROM " ++ qname ++ " WHERE \"" ++ source.partKey ++
                   "\" BETWEEN " ++ intDecimalStr p.min ++ " AND " ++
                   intDecimalStr p.max ++ ")" } }
    else none
  else if 0 < partNumber then none
  else some { qname := qname, part := none }

/-! ## Summary files: `summary.c` -/

/-- `COPY_TABLE_SUMMARY_LINES`, defined in the repository's `summary.h`
(not under `src/`); the spec fixes table/index summaries at 8 lines. -/
def COPY_TABLE_SUMMARY_LINES : Nat := 8

/-- `COPY_BLOBS_SUMMARY_LINES`, defined in the repository's `summary.h`
(not under `src/`); the spec fixes blobs summaries at 3 lines. -/
def COPY_BLOBS_SUMMARY_LINES : Nat := 3

/-- The `CopyTableSummary` fields that are written to and read from disk
(the `instr_time` fields have no on-disk representation). `pid` is a C
`int`; the three time fields are `uint64_t`. -/
structure CopyTableSummary where
  pid : Int
  table : SourceTable
  startTime : Nat
  doneTime : Nat
  durationMs : Nat
  command : String
deriving DecidableEq

/-- `write_table_summary`: the file contents produced by the
`"%d\n%u\n%s\n%s\n%lld\n%lld\n%lld\n%s\n"` format (the three `uint64_t`
fields are cast to `long long`). -/
def write_table_summary (summary : CopyTableSummary) : String :=
  intDecimalStr summary.pid ++ "\n" ++
  natDecimalStr summary.table.oid ++ "\n" ++
  summary.table.nspname ++ "\n" ++
  summary.table.relname ++ "\n" ++
  intDecimalStr (int64OfUInt64 summary.startTime) ++ "\n" ++
  intDecimalStr (int64OfUInt64 summary.doneTime) ++ "\n" ++
  intDecimalStr (int64OfUInt64 summary.durationMs) ++ "\n" ++
  summary.command ++ "\n"

/-- `read_table_summary`: split the file into lines, reject files shorter
than `COPY_TABLE_SUMMARY_LINES`, then parse each field in order into the
caller's summary (whose `table` the oid and names are stored into). -/
def read_table_summary (summary : CopyTableSummary) (contents : String) :
    Option CopyTableSummary :=
  let fileLines := splitLines contents
  if fileLines.length < COPY_TABLE_SUMMARY_LINES then none
  else
    match fileLines with
    | l0 :: l1 :: l2 :: l3 :: l4 :: l5 :: l6 :: l7 :: _ =>
        (stringToInt l0).bind fun pid =>
        (stringToUInt32 l1).bind fun oid =>
        (stringToUInt64 l4).bind fun startTime =>
        (stringToUInt64 l5).bind fun doneTime =>
        (stringToUInt64 l6).bind fun durationMs =>
        some { summary with
               pid := pid
               table := { summary.table with oid := oid, nspname := l2, relname := l3 }
               startTime := startTime
               doneTime := doneTime
               durationMs := durationMs
               command := l7 }
    | _ => none

/-- The `CopyBlobsSummary` fields: `pid` is a C `int`, `count` a
`uint32_t`, `durationMs` a `uint64_t`. -/
structure CopyBlobsSummary where
  pid : Int
  count : Nat
  durationMs : Nat
deriving DecidableEq

/-- `write_blobs_summary`: the `"%d\n%lld\n%lld\n"` format (both unsigned
fields cast to `long long`). -/
def write_blobs_summary (summary : CopyBlobsSummary) : String :=
  intDecimalStr summary.pid ++ "\n" ++
  intDecimalStr (summary.count : Int) ++ "\n" ++
  intDecimalStr (int64OfUInt64 summary.durationMs) ++ "\n"

/-- `read_blobs_summary`: reject files shorter than
`COPY_BLOBS_SUMMARY_LINES`, then parse pid, count and duration. -/
def read_blobs_summary (contents : String) : Option CopyBlobsSummary :=
  let fileLines := splitLines contents
  if fileLines.length < COPY_BLOBS_SUMMARY_LINES then none
  else
    match fileLines with
    | l0 :: l1 :: l2 :: _ =>
        (stringToInt l0).bind fun pid =>
        (stringToUInt32 l1).bind fun count =>
        (stringToUInt64 l2).bind fun durationMs =>
        some { pid := pid, count := count, durationMs := durationMs }
    | _ => none

/-- The per-index lines appended by the `create_table_index_file` loop:
`"%d\n"` of `indexOid` then `"%d\n"` of `constraintOid` — both `uint32_t`
printed through the signed `%d` conversion. -/
def indexListLines : List SourceIndex → String
  | [] => ""
  | index :: rest =>
      intDecimalStr (int32OfUInt32 index.indexOid) ++ "\n" ++
      intDecimalStr (int32OfUInt32 index.constraintOid) ++ "\n" ++
      indexListLines rest

/-- `create_table_index_file`: the file contents built by walking the
table's `firstIndex` list (allocation failures aside). -/
def create_table_index_file (table : SourceTable) : String :=
  indexListLines table.firstIndex

/-- The `SourceIndexArray` produced by `read_table_index_file`: the `count`
field and the allocated array (`none` models a NULL array pointer). -/
structure SourceIndexArray where
  count : Nat
  array : Option (List SourceIndex)
deriving DecidableEq

/-- How `read_table_index_file` can fail: a line that does not parse as an
oid, or — undefined behaviour in the C original — a store past the end of
the allocated array. -/
inductive ReadIndexError
  | parseFailure
  | outOfBounds
deriving DecidableEq

/-- The parse loop of `read_table_index_file`: line `i` is parsed as an
oid and stored into entry `pos` (`indexOid` on even `i`, `constraintOid`
on odd `i`); `pos` advances after each odd line. An out-of-bounds store is
surfaced as `ReadIndexError.outOfBounds` instead of undefined behaviour. -/
def read_index_lines : List String → List SourceIndex → Nat → Nat →
    Except ReadIndexError (List SourceIndex)
  | [], arr, _, _ => .ok arr
  | line :: rest, arr, i, pos =>
      match stringToUInt32 line with
      | none => .error .parseFailure
      | some v =>
          if h : pos < arr.length then
            read_index_lines rest
              (arr.set pos
                (if i % 2 = 0 then { arr.get ⟨pos, h⟩ with indexOid := v }
                 else { arr.get ⟨pos, h⟩ with constraintOid := v }))
              (i + 1) (if i % 2 = 1 then pos + 1 else pos)
          else .error .outOfBounds

/-- Sequential overwrite of consecutive entries starting at `pos`: the
cumulative effect of the index parse loop on the allocated array, used to
state its correctness. -/
def writeAll : List SourceIndex → Nat → List SourceIndex → List SourceIndex
  | arr, _, [] => arr
  | arr, pos, x :: xs => writeAll (arr.set pos x) (pos + 1) xs

/-- The two lines every index contributes to the index-list file. -/
def indexPairLines (idxs : List SourceIndex) : List String :=
  idxs.flatMap fun x =>
    [intDecimalStr (int32OfUInt32 x.indexOid),
     intDecimalStr (int32OfUInt32 x.constraintOid)]

/-- `read_table_index_file`: a missing file yields an empty array with a
NULL pointer; otherwise the file is split into lines, one array entry per
line is allocated zero-initialized (`calloc`), `count` is set to
`lineCount / 2`, and the parse loop fills the array. -/
def read_table_index_file (file : Option String) :
    Except ReadIndexError SourceIndexArray :=
  match file with
  | none => .ok { count := 0, array := none }
  | some contents =>
      let fileLines := splitLines contents
      let lineCount := fileLines.length
      match read_index_lines fileLines (List.replicate lineCount ⟨0, 0⟩) 0 0 with
      | .error e => .error e
      | .ok arr => .ok { count := lineCount / 2, array := some arr }

instance : DecidableEq (Except ReadIndexError SourceIndexArray) := fun a b =>
  match a, b with
  | .error x, .error y => decidable_of_iff (x = y) (by simp)
  | .ok x, .ok y => decidable_of_iff (x = y) (by simp)
  | .error _, .ok _ => .isFalse (by simp)
  | .ok _, .error _ => .isFalse (by simp)

/-! ## Concrete inputs used to instantiate the theorems -/

/-- A work directory of a completed previous run: every directory and done
file present, the pidfile stale. -/
def completedRunFS : WorkDirFS :=
  ⟨true, false, true, true, true, true, true, true, true, true, true, true, true, true⟩

/-- An environment where every database-client call succeeds. -/
def allOkEnv : PgEnv := ⟨true, true, true, true, true, true, true⟩

/-- A two-partition sample table. -/
def sampleTable : SourceTable :=
  ⟨16384, "public", "foo", "id", [⟨2, 1, 250⟩, ⟨2, 251, 500⟩], []⟩

/-- A sample table summary. -/
def sampleSummary : CopyTableSummary :=
  ⟨1234, ⟨16384, "public", "foo", "", [], []⟩, 1700000000, 1700000010, 10000,
   "COPY public.foo"⟩

/-- A table with two indexes, the second backing a constraint. -/
def sampleIndexTable : SourceTable :=
  ⟨16384, "public", "foo", "", [], [⟨16400, 0⟩, ⟨16401, 16402⟩]⟩

/-- A table whose single index oid does not fit in a signed 32-bit `int`:
`%d` prints it as a negative number. -/
def largeOidIndexTable : SourceTable :=
  ⟨16384, "public", "foo", "", [], [⟨2147483648, 0⟩]⟩

/-! ## Lemmas: decimal printing parses back to the same value -/

theorem digitChar_isDigit (d : Nat) (h : d < 10) : (Nat.digitChar d).isDigit = true := by
  interval_cases d <;> decide

theorem charToDigit_digitChar (d : Nat) (h : d < 10) :
    charToDigit (Nat.digitChar d) = d := by
  interval_cases d <;> decide

theorem isDigit_ne_newline {c : Char} (h : c.isDigit = true) : c ≠ '\n' := by
  intro he
  subst he
  simp at h

theorem isDigit_ne_minus {c : Char} (h : c.isDigit = true) : c ≠ '-' := by
  intro he
  subst he
  simp at h

theorem decimalDigitsAux_decomp (fuel : Nat) :
    ∀ n acc, ∃ ds, decimalDigitsAux fuel n acc = ds ++ acc ∧
      (∀ c ∈ ds, c.isDigit = true) ∧ (0 < fuel → ds ≠ []) := by
  induction fuel with
  | zero => exact fun n acc => ⟨[], rfl, by simp, by simp⟩
  | succ fuel ih =>
      intro n acc
      by_cases h : n < 10
      · refine ⟨[Nat.digitChar (n % 10)], by simp [decimalDigitsAux, h], ?_, by simp⟩
        intro c hc
        rw [List.mem_singleton] at hc
        subst hc
        exact digitChar_isDigit _ (Nat.mod_lt _ (by norm_num))
      · obtain ⟨ds, hds, hdig, -⟩ := ih (n / 10) (Nat.digitChar (n % 10) :: acc)
        refine ⟨ds ++ [Nat.digitChar (n % 10)], ?_, ?_, by simp⟩
        · simp only [decimalDigitsAux, if_neg h, hds, List.append_assoc,
            List.singleton_append]
        · intro c hc
          rcases List.mem_append.mp hc with hc | hc
          · exact hdig c hc
          · rw [List.mem_singleton] at hc
            subst hc
            exact digitChar_isDigit _ (Nat.mod_lt _ (by norm_num))

theorem digitsValFrom_cons (v : Nat) (c : Char) (cs : List Char) :
    digitsValFrom v (c :: cs) = digitsValFrom (10 * v + charToDigit c) cs := rfl

theorem decimalDigitsAux_val (fuel : Nat) :
    ∀ n acc, n < fuel →
      digitsVal (decimalDigitsAux fuel n acc) = digitsValFrom n acc := by
  induction fuel with
  | zero => omega
  | succ fuel ih =>
      intro n acc hn
      by_cases h : n < 10
      · have hmod : n % 10 = n := Nat.mod_eq_of_lt h
        simp only [decimalDigitsAux, if_pos h, digitsVal, digitsValFrom_cons]
        rw [charToDigit_digitChar _ (Nat.mod_lt _ (by norm_num)), hmod]
        simp
      · have hdiv : n / 10 < fuel := by
          have h1 : n / 10 < n := Nat.div_lt_self (by omega) (by norm_num)
          omega
        simp only [decimalDigitsAux, if_neg h]
        rw [ih (n / 10) (Nat.digitChar (n % 10) :: acc) hdiv, digitsValFrom_cons]
        rw [charToDigit_digitChar _ (Nat.mod_lt _ (by norm_num))]
        congr 1
        omega

theorem natDecimal_decomp (n : Nat) :
    (∀ c ∈ natDecimal n, c.isDigit = true) ∧ natDecimal n ≠ [] := by
  obtain ⟨ds, hds, hdig, hne⟩ := decimalDigitsAux_decomp (n + 1) n []
  rw [natDecimal, hds, List.append_nil]
  exact ⟨hdig, hne (by omega)⟩

theorem isDigits_natDecimal (n : Nat) : isDigits (natDecimal n) = true := by
  obtain ⟨hdig, hne⟩ := natDecimal_decomp n
  cases hcs : natDecimal n with
  | nil => exact absurd hcs hne
  | cons c tl =>
      rw [hcs] at hdig
      simp only [isDigits, List.isEmpty_cons, Bool.not_false, Bool.true_and,
        List.all_eq_true]
      exact hdig

theorem digitsVal_natDecimal (n : Nat) : digitsVal (natDecimal n) = n := by
  rw [natDecimal, decimalDigitsAux_val (n + 1) n [] (by omega)]
  rfl

theorem newline_not_mem_natDecimal (n : Nat) : '\n' ∉ natDecimal n := by
  intro hm
  exact isDigit_ne_newline ((natDecimal_decomp n).1 _ hm) rfl

theorem newline_not_mem_intDecimal (i : Int) : '\n' ∉ intDecimal i := by
  rw [intDecimal]
  split
  · intro hm
    rcases List.mem_cons.mp hm with hm | hm
    · exact absurd hm.symm (by decide)
    · exact newline_not_mem_natDecimal _ hm
  · exact newline_not_mem_natDecimal _

theorem stringToUInt32_natDecimalStr (n : Nat) (h : n < 2 ^ 32) :
    stringToUInt32 (natDecimalStr n) = some n := by
  have hd : (natDecimalStr n).data = natDecimal n := rfl
  rw [stringToUInt32, hd, digitsVal_natDecimal,
    if_pos ⟨isDigits_natDecimal n, h⟩]

theorem stringToUInt64_natDecimalStr (n : Nat) (h : n < 2 ^ 64) :
    stringToUInt64 (natDecimalStr n) = some n := by
  have hd : (natDecimalStr n).data = natDecimal n := rfl
  rw [stringToUInt64, hd, digitsVal_natDecimal,
    if_pos ⟨isDigits_natDecimal n, h⟩]

theorem parseSign_of_digits (cs : List Char) (hne : cs ≠ [])
    (hdig : ∀ c ∈ cs, c.isDigit = true) : parseSign cs = (false, cs) := by
  match cs, hne with
  | c :: tl, _ =>
      have hc : c ≠ '-' := isDigit_ne_minus (hdig c (List.mem_cons_self c tl))
      simp [parseSign, hc]

theorem stringToInt_intDecimalStr (i : Int) (h1 : -(2 ^ 31) ≤ i)
    (h2 : i ≤ 2 ^ 31 - 1) : stringToInt (intDecimalStr i) = some i := by
  have hd : (intDecimalStr i).data = intDecimal i := rfl
  by_cases hneg : i < 0
  · rw [stringToInt, hd, intDecimal, if_pos hneg]
    have hsign : parseSign ('-' :: natDecimal i.natAbs) = (true, natDecimal i.natAbs) := by
      simp [parseSign]
    rw [hsign]
    have hle : (digitsVal (natDecimal i.natAbs) : Int) ≤ 2 ^ 31 := by
      rw [digitsVal_natDecimal]
      omega
    simp only [isDigits_natDecimal, digitsVal_natDecimal, if_true, true_and,
      if_pos (by rw [digitsVal_natDecimal] at hle; exact hle)]
    congr 1
    omega
  · obtain ⟨hdig, hne⟩ := natDecimal_decomp i.toNat
    rw [stringToInt, hd, intDecimal, if_neg hneg]
    rw [parseSign_of_digits _ hne hdig]
    have hval : (digitsVal (natDecimal i.toNat) : Int) = i := by
      rw [digitsVal_natDecimal]
      omega
    have hle : (digitsVal (natDecimal i.toNat) : Int) ≤ 2 ^ 31 - 1 := by omega
    rw [if_pos ⟨isDigits_natDecimal i.toNat, by simpa using hle⟩]
    simp [hval]

theorem int64OfUInt64_eq_of_lt {v : Nat} (h : v < 2 ^ 63) :
    int64OfUInt64 v = (v : Int) := by
  rw [int64OfUInt64, if_pos h]

theorem intDecimalStr_int64OfUInt64 {v : Nat} (h : v < 2 ^ 63) :
    intDecimalStr (int64OfUInt64 v) = natDecimalStr v := by
  rw [int64OfUInt64_eq_of_lt h, intDecimalStr, intDecimal,
    if_neg (by omega : ¬((v : Int) < 0)), Int.toNat_natCast]
  rfl

theorem int32OfUInt32_eq_of_lt {v : Nat} (h : v < 2 ^ 31) :
    int32OfUInt32 v = (v : Int) := by
  rw [int32OfUInt32, if_pos h]

theorem intDecimalStr_int32OfUInt32 {v : Nat} (h : v < 2 ^ 31) :
    intDecimalStr (int32OfUInt32 v) = natDecimalStr v := by
  rw [int32OfUInt32_eq_of_lt h, intDecimalStr, intDecimal,
    if_neg (by omega : ¬((v : Int) < 0)), Int.toNat_natCast]
  rfl

/-! ## Lemmas: splitting LF-joined lines recovers the lines -/

theorem data_append (a b : String) : (a ++ b).data = a.data ++ b.data := rfl

theorem data_newline : "\n".data = ['\n'] := rfl

theorem mk_data (s : String) : String.mk s.data = s := rfl

theorem natDecimalStr_data (n : Nat) : (natDecimalStr n).data = natDecimal n := rfl

theorem intDecimalStr_data (i : Int) : (intDecimalStr i).data = intDecimal i := rfl

theorem splitLinesList_append (a : List Char) (rest : List Char) (h : '\n' ∉ a) :
    splitLinesList (a ++ '\n' :: rest) = a :: splitLinesList rest := by
  induction a with
  | nil => simp [splitLinesList]
  | cons c tl ih =>
      have hc : c ≠ '\n' := fun e => h (by simp [e])
      have h' : '\n' ∉ tl := fun hm => h (List.mem_cons_of_mem _ hm)
      rw [List.cons_append]
      show splitLinesList (c :: (tl ++ '\n' :: rest)) = _
      rw [splitLinesList, if_neg hc, ih h']

theorem splitLines_write_table_summary (s : CopyTableSummary)
    (hn : '\n' ∉ s.table.nspname.data) (hr : '\n' ∉ s.table.relname.data)
    (hc : '\n' ∉ s.command.data) :
    splitLines (write_table_summary s) =
      [intDecimalStr s.pid, natDecimalStr s.table.oid, s.table.nspname,
       s.table.relname, intDecimalStr (int64OfUInt64 s.startTime),
       intDecimalStr (int64OfUInt64 s.doneTime),
       intDecimalStr (int64OfUInt64 s.durationMs), s.command] := by
  have hd : (write_table_summary s).data =
      intDecimal s.pid ++ '\n' :: (natDecimal s.table.oid ++ '\n' ::
      (s.table.nspname.data ++ '\n' :: (s.table.relname.data ++ '\n' ::
      (intDecimal (int64OfUInt64 s.startTime) ++ '\n' ::
      (intDecimal (int64OfUInt64 s.doneTime) ++ '\n' ::
      (intDecimal (int64OfUInt64 s.durationMs) ++ '\n' ::
      (s.command.data ++ '\n' :: ([] : List Char)))))))) := by
    simp [write_table_summary, data_append, data_newline, intDecimalStr_data,
      natDecimalStr_data, List.append_assoc]
  rw [splitLines, hd]
  rw [splitLinesList_append _ _ (newline_not_mem_intDecimal _)]
  rw [splitLinesList_append _ _ (newline_not_mem_natDecimal _)]
  rw [splitLinesList_append _ _ hn, splitLinesList_append _ _ hr]
  rw [splitLinesList_append _ _ (newline_not_mem_intDecimal _)]
  rw [splitLinesList_append _ _ (newline_not_mem_intDecimal _)]
  rw [splitLinesList_append _ _ (newline_not_mem_intDecimal _)]
  rw [splitLinesList_append _ _ hc]
  rfl

/-- C6: for every table summary that `write_table_summary` serializes (pid in
`int` range, oid in `uint32` range, epoch and duration values below `2 ^ 63`,
no LF inside the namespace, name or command strings), the produced file holds
exactly the eight LF-terminated lines pid, oid, namespace, name,
startEpochSec, doneEpochSec, durationMs and SQL command, and
`read_table_summary` applied to that file returns the same pid, oid,
namespace, name, startTime, doneTime, durationMs and command values. -/
theorem C6_table_summary_roundtrip (s : CopyTableSummary)
    (hp1 : -(2 ^ 31) ≤ s.pid) (hp2 : s.pid ≤ 2 ^ 31 - 1)
    (ho : s.table.oid < 2 ^ 32)
    (hst : s.startTime < 2 ^ 63) (hdt : s.doneTime < 2 ^ 63)
    (hdu : s.durationMs < 2 ^ 63)
    (hn : '\n' ∉ s.table.nspname.data) (hr : '\n' ∉ s.table.relname.data)
    (hc : '\n' ∉ s.command.data) :
    splitLines (write_table_summary s) =
      [intDecimalStr s.pid, natDecimalStr s.table.oid, s.table.nspname,
       s.table.relname, natDecimalStr s.startTime, natDecimalStr s.doneTime,
       natDecimalStr s.durationMs, s.command] ∧
    read_table_summary s (write_table_summary s) = some s := by
  have hlines := splitLines_write_table_summary s hn hr hc
  rw [intDecimalStr_int64OfUInt64 hst, intDecimalStr_int64OfUInt64 hdt,
    intDecimalStr_int64OfUInt64 hdu] at hlines
  refine ⟨hlines, ?_⟩
  simp only [read_table_summary, hlines]
  rw [if_neg (by simp [COPY_TABLE_SUMMARY_LINES])]
  rw [stringToInt_intDecimalStr s.pid hp1 hp2,
    stringToUInt32_natDecimalStr _ ho,
    stringToUInt64_natDecimalStr _ (lt_trans hst (by norm_num)),
    stringToUInt64_natDecimalStr _ (lt_trans hdt (by norm_num)),
    stringToUInt64_natDecimalStr _ (lt_trans hdu (by norm_num))]
  rfl

/-- C7: a summary file with fewer lines than expected is rejected: fewer
than `COPY_TABLE_SUMMARY_LINES` (8) lines make `read_table_summary` fail,
and fewer than `COPY_BLOBS_SUMMARY_LINES` (3) lines make
`read_blobs_summary` fail. -/
theorem C7_short_summary_file_rejected (contents : String) :
    ((splitLines contents).length < COPY_TABLE_SUMMARY_LINES →
      ∀ s, read_table_summary s contents = none) ∧
    ((splitLines contents).length < COPY_BLOBS_SUMMARY_LINES →
      read_blobs_summary contents = none) := by
  constructor
  · intro h s
    simp only [read_table_summary, if_pos h]
  · intro h
    simp only [read_blobs_summary, if_pos h]

/-- Witness for C7 at the two-line file `"12\n3\n"`. -/
theorem C7_short_summary_file_rejected_witness :
    read_table_summary sampleSummary "12\n3\n" = none ∧
    read_blobs_summary "12\n3\n" = none :=
  ⟨(C7_short_summary_file_rejected "12\n3\n").1 (by decide) sampleSummary,
   (C7_short_summary_file_rejected "12\n3\n").2 (by decide)⟩

/-- C8: for a filename that does not exist on disk,
`read_table_index_file` succeeds and yields count 0 with a NULL array. -/
theorem C8_missing_index_file_is_not_an_error :
    read_table_index_file none = .ok { count := 0, array := none } := rfl

theorem read_index_lines_cons_none {line : String} {rest : List String}
    {arr : List SourceIndex} {i pos : Nat}
    (hparse : stringToUInt32 line = none) :
    read_index_lines (line :: rest) arr i pos = .error .parseFailure := by
  rw [read_index_lines, hparse]

theorem read_index_lines_cons_some {line : String} {rest : List String}
    {arr : List SourceIndex} {i pos v : Nat}
    (hparse : stringToUInt32 line = some v) (hb : pos < arr.length) :
    read_index_lines (line :: rest) arr i pos =
      read_index_lines rest
        (arr.set pos
          (if i % 2 = 0 then { arr.get ⟨pos, hb⟩ with indexOid := v }
           else { arr.get ⟨pos, hb⟩ with constraintOid := v }))
        (i + 1) (if i % 2 = 1 then pos + 1 else pos) := by
  rw [read_index_lines, hparse]
  exact dif_pos hb

theorem read_index_lines_cons_oob {line : String} {rest : List String}
    {arr : List SourceIndex} {i pos v : Nat}
    (hparse : stringToUInt32 line = some v) (hb : ¬pos < arr.length) :
    read_index_lines (line :: rest) arr i pos = .error .outOfBounds := by
  rw [read_index_lines, hparse]
  exact dif_neg hb

theorem read_index_lines_no_oob :
    ∀ (fileLines : List String) (arr : List SourceIndex) (i pos : Nat),
      pos = i / 2 → i + fileLines.length ≤ arr.length →
      read_index_lines fileLines arr i pos ≠ .error .outOfBounds := by
  intro fileLines
  induction fileLines with
  | nil => intro arr i pos _ _; simp [read_index_lines]
  | cons line rest ih =>
      intro arr i pos hpos hlen
      rw [read_index_lines]
      cases hparse : stringToUInt32 line with
      | none => simp
      | some v =>
          have hlt : pos < arr.length := by
            simp only [List.length_cons] at hlen
            omega
          simp only [dif_pos hlt]
          apply ih
          · split <;> omega
          · simp only [List.length_set, List.length_cons] at *
            omega

theorem read_index_lines_ok_parse :
    ∀ (fileLines : List String) (arr : List SourceIndex) (i pos : Nat)
      (a : List SourceIndex),
      read_index_lines fileLines arr i pos = .ok a →
      ∀ l ∈ fileLines, (stringToUInt32 l).isSome := by
  intro fileLines
  induction fileLines with
  | nil => simp
  | cons line rest ih =>
      intro arr i pos a h l hl
      cases hparse : stringToUInt32 line with
      | none =>
          rw [read_index_lines_cons_none hparse] at h
          exact absurd h (by simp)
      | some v =>
          by_cases hb : pos < arr.length
          · rw [read_index_lines_cons_some hparse hb] at h
            rcases List.mem_cons.mp hl with rfl | hl
            · simp [hparse]
            · exact ih _ _ _ _ h l hl
          · rw [read_index_lines_cons_oob hparse hb] at h
            exact absurd h (by simp)

/-- C9: the parse loop of `read_table_index_file` never stores past the
allocation of one entry per input line, the returned `count` is
`lineCount / 2`, and a successful read parsed every line of the file —
including the trailing unpaired line of an odd-length file, which is
excluded from `count`. -/
theorem C9_index_file_reader_stays_in_bounds (contents : String) :
    read_table_index_file (some contents) ≠ .error .outOfBounds ∧
    (∀ a, read_table_index_file (some contents) = .ok a →
      a.count = (splitLines contents).length / 2 ∧
      ∀ l ∈ splitLines contents, (stringToUInt32 l).isSome) := by
  have hno := read_index_lines_no_oob (splitLines contents)
    (List.replicate (splitLines contents).length ⟨0, 0⟩) 0 0 (by simp) (by simp)
  constructor
  · intro hcontra
    simp only [read_table_index_file] at hcontra
    cases hres : read_index_lines (splitLines contents)
        (List.replicate (splitLines contents).length ⟨0, 0⟩) 0 0 with
    | error e =>
        rw [hres] at hcontra
        simp only [Except.error.injEq] at hcontra
        exact hno (by rw [hres, hcontra])
    | ok arr =>
        rw [hres] at hcontra
        exact absurd hcontra (by simp)
  · intro a ha
    simp only [read_table_index_file] at ha
    cases hres : read_index_lines (splitLines contents)
        (List.replicate (splitLines contents).length ⟨0, 0⟩) 0 0 with
    | error e => rw [hres] at ha; exact absurd ha (by simp)
    | ok arr =>
        rw [hres] at ha
        simp only [Except.ok.injEq] at ha
        subst ha
        exact ⟨rfl, read_index_lines_ok_parse _ _ _ _ _ hres⟩

/-- Witness for C9 at the odd three-line file `"1\n2\n3\n"`. -/
theorem C9_index_file_reader_stays_in_bounds_witness :
    read_table_index_file (some "1\n2\n3\n") ≠ .error .outOfBounds ∧
    (SourceIndexArray.count ⟨1, some [⟨1, 2⟩, ⟨3, 0⟩, ⟨0, 0⟩]⟩ =
        (splitLines "1\n2\n3\n").length / 2 ∧
      ∀ l ∈ splitLines "1\n2\n3\n", (stringToUInt32 l).isSome) :=
  ⟨(C9_index_file_reader_stays_in_bounds "1\n2\n3\n").1,
   (C9_index_file_reader_stays_in_bounds "1\n2\n3\n").2
     ⟨1, some [⟨1, 2⟩, ⟨3, 0⟩, ⟨0, 0⟩]⟩ (by decide)⟩

theorem indexPairLines_nil : indexPairLines [] = [] := rfl

theorem indexPairLines_cons (x : SourceIndex) (xs : List SourceIndex) :
    indexPairLines (x :: xs) =
      intDecimalStr (int32OfUInt32 x.indexOid) ::
      intDecimalStr (int32OfUInt32 x.constraintOid) :: indexPairLines xs := by
  simp [indexPairLines]

theorem indexPairLines_length (idxs : List SourceIndex) :
    (indexPairLines idxs).length = 2 * idxs.length := by
  induction idxs with
  | nil => rfl
  | cons x xs ih => rw [indexPairLines_cons]; simp [ih]; omega

theorem splitLines_indexListLines (idxs : List SourceIndex) :
    splitLines (indexListLines idxs) = indexPairLines idxs := by
  induction idxs with
  | nil => rfl
  | cons x xs ih =>
      have hd : (indexListLines (x :: xs)).data =
          intDecimal (int32OfUInt32 x.indexOid) ++ '\n' ::
          (intDecimal (int32OfUInt32 x.constraintOid) ++ '\n' ::
          (indexListLines xs).data) := by
        simp [indexListLines, data_append, data_newline, intDecimalStr_data,
          List.append_assoc]
      have ih' : List.map String.mk (splitLinesList (indexListLines xs).data) =
          indexPairLines xs := ih
      rw [splitLines, hd,
        splitLinesList_append _ _ (newline_not_mem_intDecimal _),
        splitLinesList_append _ _ (newline_not_mem_intDecimal _),
        List.map_cons, List.map_cons, ih', indexPairLines_cons]
      rfl

theorem writeAll_length :
    ∀ (xs arr : List SourceIndex) (pos : Nat),
      (writeAll arr pos xs).length = arr.length := by
  intro xs
  induction xs with
  | nil => intro arr pos; rfl
  | cons x xs ih => intro arr pos; rw [writeAll, ih, List.length_set]

theorem writeAll_getElem_lt :
    ∀ (xs arr : List SourceIndex) (pos q : Nat), q < pos →
      (writeAll arr pos xs)[q]? = arr[q]? := by
  intro xs
  induction xs with
  | nil => intro arr pos q _; rfl
  | cons x xs ih =>
      intro arr pos q hq
      rw [writeAll, ih _ _ _ (by omega)]
      exact List.getElem?_set_ne (by omega)

theorem writeAll_getElem :
    ∀ (xs arr : List SourceIndex) (pos j : Nat) (hj : j < xs.length),
      pos + xs.length ≤ arr.length →
      (writeAll arr pos xs)[pos + j]? = some (xs.get ⟨j, hj⟩) := by
  intro xs
  induction xs with
  | nil => intro arr pos j hj; exact absurd hj (by simp)
  | cons x xs ih =>
      intro arr pos j hj hlen
      simp only [List.length_cons] at hlen
      cases j with
      | zero =>
          rw [writeAll]
          have h0 : (writeAll (arr.set pos x) (pos + 1) xs)[pos + 0]? =
              (arr.set pos x)[pos + 0]? :=
            writeAll_getElem_lt xs (arr.set pos x) (pos + 1) (pos + 0) (by omega)
          rw [h0, Nat.add_zero, List.getElem?_set_self (by omega)]
          rfl
      | succ j =>
          rw [writeAll, show pos + (j + 1) = (pos + 1) + j by omega]
          rw [ih (arr.set pos x) (pos + 1) j (by simpa using hj)
            (by rw [List.length_set]; omega)]
          rfl

theorem writeAll_take (idxs : List SourceIndex) (n : Nat) (h : idxs.length ≤ n) :
    (writeAll (List.replicate n ⟨0, 0⟩) 0 idxs).take idxs.length = idxs := by
  apply List.ext_getElem?_iff.mpr
  intro j
  by_cases hj : j < idxs.length
  · rw [List.getElem?_take_of_lt hj]
    have hw := writeAll_getElem idxs (List.replicate n ⟨0, 0⟩) 0 j hj
      (by simp [h])
    rw [Nat.zero_add] at hw
    rw [hw, List.getElem?_eq_getElem hj]
    rfl
  · rw [List.getElem?_eq_none_iff.mpr, List.getElem?_eq_none_iff.mpr]
    · omega
    · rw [List.length_take, writeAll_length, List.length_replicate]
      omega

theorem read_index_lines_pairs :
    ∀ (idxs arr : List SourceIndex) (i pos : Nat),
      i % 2 = 0 → pos + idxs.length ≤ arr.length →
      (∀ x ∈ idxs, x.indexOid < 2 ^ 31 ∧ x.constraintOid < 2 ^ 31) →
      read_index_lines (indexPairLines idxs) arr i pos =
        .ok (writeAll arr pos idxs) := by
  intro idxs
  induction idxs with
  | nil => intro arr i pos _ _ _; rfl
  | cons x xs ih =>
      intro arr i pos hi hlen hb
      obtain ⟨hx1, hx2⟩ := hb x (List.mem_cons_self x xs)
      have hlt : pos < arr.length := by
        simp only [List.length_cons] at hlen
        omega
      have hline1 : stringToUInt32 (intDecimalStr (int32OfUInt32 x.indexOid)) =
          some x.indexOid := by
        rw [intDecimalStr_int32OfUInt32 hx1]
        exact stringToUInt32_natDecimalStr _ (by omega)
      have hline2 : stringToUInt32 (intDecimalStr (int32OfUInt32 x.constraintOid)) =
          some x.constraintOid := by
        rw [intDecimalStr_int32OfUInt32 hx2]
        exact stringToUInt32_natDecimalStr _ (by omega)
      rw [indexPairLines_cons]
      rw [read_index_lines_cons_some hline1 hlt]
      rw [if_pos hi, if_neg (by omega : ¬i % 2 = 1)]
      have hlt1 : pos < (arr.set pos { arr.get ⟨pos, hlt⟩ with indexOid := x.indexOid }).length := by
        rwa [List.length_set]
      rw [read_index_lines_cons_some hline2 hlt1]
      rw [if_neg (by omega : ¬(i + 1) % 2 = 0), if_pos (by omega : (i + 1) % 2 = 1)]
      rw [List.get_set_eq hlt1, List.set_set]
      have hx : ({ indexOid := x.indexOid, constraintOid := x.constraintOid } : SourceIndex) = x := rfl
      rw [hx]
      rw [ih (arr.set pos x) (i + 2) (pos + 1) (by omega)
        (by rw [List.length_set]; simp only [List.length_cons] at hlen; omega)
        (fun y hy => hb y (List.mem_cons_of_mem _ hy))]
      rfl

/-- C10 counterexample: `create_table_index_file` prints the `uint32_t`
oids through the signed `%d` conversion, so for a table whose single index
has oid `2 ^ 31` the file holds the line `-2147483648`, which
`read_table_index_file` rejects — the write/read round trip fails. -/
theorem C10_roundtrip_counterexample :
    splitLines (create_table_index_file largeOidIndexTable) = ["-2147483648", "0"] ∧
    read_table_index_file (some (create_table_index_file largeOidIndexTable)) =
      .error .parseFailure := by
  decide

/-- C10 (amended): for every table all of whose index oids and constraint
oids fit in a signed 32-bit `int` (are below `2 ^ 31`),
`create_table_index_file` writes exactly `2 * k` lines — each index's
indexOid then its constraintOid — and `read_table_index_file` applied to
that file returns an array of count `k` whose first `k` entries are exactly
the table's indexes in list order. -/
theorem C10_index_file_roundtrip (table : SourceTable)
    (hb : ∀ x ∈ table.firstIndex,
      x.indexOid < 2 ^ 31 ∧ x.constraintOid < 2 ^ 31) :
    (splitLines (create_table_index_file table)).length =
      2 * table.firstIndex.length ∧
    ∃ a, read_table_index_file (some (create_table_index_file table)) =
        .ok { count := table.firstIndex.length, array := some a } ∧
      a.length = 2 * table.firstIndex.length ∧
      a.take table.firstIndex.length = table.firstIndex := by
  have hsplit : splitLines (create_table_index_file table) =
      indexPairLines table.firstIndex := splitLines_indexListLines table.firstIndex
  have hlen : (splitLines (create_table_index_file table)).length =
      2 * table.firstIndex.length := by
    rw [hsplit, indexPairLines_length]
  refine ⟨hlen, writeAll (List.replicate (2 * table.firstIndex.length) ⟨0, 0⟩) 0
    table.firstIndex, ?_, ?_, ?_⟩
  · simp only [read_table_index_file, hsplit, indexPairLines_length]
    rw [read_index_lines_pairs table.firstIndex _ 0 0 rfl
      (by rw [List.length_replicate]; omega) hb]
    have h2 : 2 * table.firstIndex.length / 2 = table.firstIndex.length := by omega
    rw [h2]
  · rw [writeAll_length, List.length_replicate]
  · exact writeAll_take table.firstIndex _ (by omega)

/-- Witness for C10 at a two-index table. -/
theorem C10_index_file_roundtrip_witness :
    (splitLines (create_table_index_file sampleIndexTable)).length =
      2 * sampleIndexTable.firstIndex.length ∧
    ∃ a, read_table_index_file (some (create_table_index_file sampleIndexTable)) =
        .ok { count := sampleIndexTable.firstIndex.length, array := some a } ∧
      a.length = 2 * sampleIndexTable.firstIndex.length ∧
      a.take sampleIndexTable.firstIndex.length = sampleIndexTable.firstIndex :=
  C10_index_file_roundtrip sampleIndexTable (by decide)

/-- Witness for C6 at a sample summary. -/
theorem C6_table_summary_roundtrip_witness :
    splitLines (write_table_summary sampleSummary) =
      [intDecimalStr sampleSummary.pid, natDecimalStr sampleSummary.table.oid,
       sampleSummary.table.nspname, sampleSummary.table.relname,
       natDecimalStr sampleSummary.startTime, natDecimalStr sampleSummary.doneTime,
       natDecimalStr sampleSummary.durationMs, sampleSummary.command] ∧
    read_table_summary sampleSummary (write_table_summary sampleSummary) =
      some sampleSummary :=
  C6_table_summary_roundtrip sampleSummary (by decide) (by decide) (by decide)
    (by decide) (by decide) (by decide) (by decide) (by decide) (by decide)

theorem inspect_allDone_flags (fs : WorkDirFS)
    (h : (copydb_inspect_workdir fs .initial).allDone = true) :
    fs.topdirExists = true ∧
    (fs.schemadirExists && fs.rundirExists && fs.tbldirExists && fs.idxdirExists) = true ∧
    fs.preDataDumpFile = true ∧ fs.postDataDumpFile = true ∧
    fs.preDataRestoreFile = true ∧ fs.postDataRestoreFile = true ∧
    fs.tablesDoneFile = true ∧ fs.indexesDoneFile = true ∧
    fs.sequencesDoneFile = true ∧ fs.blobsDoneFile = true := by
  by_cases htop : fs.topdirExists = false
  · simp [copydb_inspect_workdir, htop, DirectoryState.initial] at h
  · by_cases hcomp :
        (fs.schemadirExists && fs.rundirExists && fs.tbldirExists && fs.idxdirExists) = false
    · simp [copydb_inspect_workdir, htop, hcomp, DirectoryState.initial] at h
    · simp [copydb_inspect_workdir, htop, hcomp, DirectoryState.initial,
        Bool.and_eq_true] at h
      refine ⟨by revert htop; cases fs.topdirExists <;> simp,
        by revert hcomp
           cases fs.schemadirExists <;> cases fs.rundirExists <;>
             cases fs.tbldirExists <;> cases fs.idxdirExists <;> simp, ?_⟩
      tauto

/-- C1 counterexample: for a completed previous run (work directory exists,
schema dump done, `allDone`), calling `copydb_init_workdir` with
`restart = false` and `resume = true` does not fail — the resume check
precedes the `allDone` check — so the claim's "regardless of the resume
flag" is false. -/
theorem C1_allDone_counterexample :
    (copydb_inspect_workdir completedRunFS .initial).directoryExists = true ∧
    (copydb_inspect_workdir completedRunFS .initial).schemaDumpIsDone = true ∧
    (copydb_inspect_workdir completedRunFS .initial).allDone = true ∧
    (copydb_init_workdir completedRunFS .initial false true).fst =
      .proceed false := by
  decide

/-- C1 (amended): for every startup in which the inspected work directory
is `allDone`, `copydb_init_workdir` fails whenever both the restart flag
and the resume flag are false. -/
theorem C1_allDone_fails_without_restart_or_resume (fs : WorkDirFS)
    (h : (copydb_inspect_workdir fs .initial).allDone = true) :
    ((copydb_init_workdir fs .initial false false).fst).isFailure = true := by
  obtain ⟨htop, hcomp, h1, h2, h3, h4, h5, h6, h7, h8⟩ := inspect_allDone_flags fs h
  by_cases hpid : fs.pidfileIsLive = true
  · simp [copydb_init_workdir, htop, hpid, InitWorkdirOutcome.isFailure]
  · simp [copydb_init_workdir, copydb_inspect_workdir, DirectoryState.initial,
      htop, hpid, hcomp, h1, h2, h3, h4, h5, h6, h7, h8,
      InitWorkdirOutcome.isFailure]

/-- Witness for the amended C1 at a completed run's work directory. -/
theorem C1_allDone_fails_witness :
    ((copydb_init_workdir completedRunFS .initial false false).fst).isFailure = true :=
  C1_allDone_fails_without_restart_or_resume completedRunFS (by decide)

/-- C2: when the work directory and its expected component directories all
exist, `copydb_inspect_workdir` sets `allDone` to true exactly when the
eight phase marker files (dump-pre.done, dump-post.done, restore-pre.done,
restore-post.done, tables.done, indexes.done, sequences.done, blobs.done)
all exist. -/
theorem C2_allDone_iff_eight_markers (fs : WorkDirFS) (dirState : DirectoryState)
    (htop : fs.topdirExists = true)
    (hcomp : fs.schemadirExists = true ∧ fs.rundirExists = true ∧
      fs.tbldirExists = true ∧ fs.idxdirExists = true) :
    (copydb_inspect_workdir fs dirState).allDone = true ↔
      (fs.preDataDumpFile = true ∧ fs.postDataDumpFile = true ∧
       fs.preDataRestoreFile = true ∧ fs.postDataRestoreFile = true ∧
       fs.tablesDoneFile = true ∧ fs.indexesDoneFile = true ∧
       fs.sequencesDoneFile = true ∧ fs.blobsDoneFile = true) := by
  obtain ⟨hc1, hc2, hc3, hc4⟩ := hcomp
  simp [copydb_inspect_workdir, htop, hc1, hc2, hc3, hc4, Bool.and_eq_true,
    and_assoc]

/-- Witness for C2 at a completed run's work directory. -/
theorem C2_allDone_iff_eight_markers_witness :
    (copydb_inspect_workdir completedRunFS .initial).allDone = true ↔
      (completedRunFS.preDataDumpFile = true ∧ completedRunFS.postDataDumpFile = true ∧
       completedRunFS.preDataRestoreFile = true ∧ completedRunFS.postDataRestoreFile = true ∧
       completedRunFS.tablesDoneFile = true ∧ completedRunFS.indexesDoneFile = true ∧
       completedRunFS.sequencesDoneFile = true ∧ completedRunFS.blobsDoneFile = true) :=
  C2_allDone_iff_eight_markers completedRunFS .initial (by decide)
    ⟨by decide, by decide, by decide, by decide⟩

/-- C3: `copydb_export_snapshot` issues `BEGIN` and
`SET TRANSACTION ISOLATION LEVEL SERIALIZABLE READ WRITE DEFERRABLE` before
it exports the snapshot, and `copydb_set_snapshot` in consistent mode
issues `BEGIN` and the repeatable-read read-write deferrable variant before
it imports the snapshot. -/
theorem C3_snapshot_transaction_setup (env : PgEnv) :
    (PgAction.exportSnapshot ∈ (copydb_export_snapshot env).trace →
      (copydb_export_snapshot env).trace.take 4 =
        [.init, .beginTx, .setTransaction .serializable false true,
         .exportSnapshot]) ∧
    (PgAction.setSnapshot ∈ (copydb_set_snapshot env true).trace →
      (copydb_set_snapshot env true).trace.take 4 =
        [.init, .beginTx, .setTransaction .repeatableRead false true,
         .setSnapshot]) := by
  obtain ⟨i, b, t, e, s, g, w⟩ := env
  cases i <;> cases b <;> cases t <;> cases e <;> cases s <;> cases g <;>
    cases w <;> decide

/-- Witness for C3 with every database call succeeding. -/
theorem C3_snapshot_transaction_setup_witness :
    (copydb_export_snapshot allOkEnv).trace.take 4 =
      [.init, .beginTx, .setTransaction .serializable false true,
       .exportSnapshot] ∧
    (copydb_set_snapshot allOkEnv true).trace.take 4 =
      [.init, .beginTx, .setTransaction .repeatableRead false true,
       .setSnapshot] :=
  ⟨(C3_snapshot_transaction_setup allOkEnv).1 (by decide),
   (C3_snapshot_transaction_setup allOkEnv).2 (by decide)⟩

/-- C4: with `consistent = false`, `copydb_set_snapshot` never calls
`pgsql_set_transaction` or `pgsql_set_snapshot`; when connection and BEGIN
succeed its calls are exactly init, BEGIN, set-GUCs and it marks the state
`SNAPSHOT_STATE_NOT_CONSISTENT`; and `copydb_prepare_snapshot` does nothing
except mark the state `SNAPSHOT_STATE_SKIPPED`. -/
theorem C4_not_consistent_behaviour (env : PgEnv) :
    (copydb_set_snapshot env false).trace.any PgAction.isSetTransaction = false ∧
    PgAction.setSnapshot ∉ (copydb_set_snapshot env false).trace ∧
    (env.initOk = true → env.beginOk = true →
      (copydb_set_snapshot env false).trace = [.init, .beginTx, .setGucs] ∧
      (copydb_set_snapshot env false).state = some .notConsistent) ∧
    copydb_prepare_snapshot env false false = ⟨true, [], some .skipped⟩ ∧
    copydb_prepare_snapshot env false true = ⟨true, [], some .skipped⟩ := by
  obtain ⟨i, b, t, e, s, g, w⟩ := env
  cases i <;> cases b <;> cases t <;> cases e <;> cases s <;> cases g <;>
    cases w <;> decide

/-- Witness for C4 with every database call succeeding. -/
theorem C4_not_consistent_behaviour_witness :
    (copydb_set_snapshot allOkEnv false).trace = [.init, .beginTx, .setGucs] ∧
    (copydb_set_snapshot allOkEnv false).state = some .notConsistent :=
  (C4_not_consistent_behaviour allOkEnv).2.2.1 rfl rfl

/-- C5: for every source table with at least one partition and every
in-range part number, `copydb_init_table_specs` sets the COPY source
expression to exactly
`(SELECT * FROM "<nspname>"."<relname>" WHERE "<partKey>" BETWEEN <min> AND <max>)`
with that partition's inclusive bounds. -/
theorem C5_partition_copy_query (source : SourceTable) (partNumber : Nat)
    (h1 : 1 ≤ source.partsArray.length)
    (h2 : partNumber < source.partsArray.length) :
    copydb_init_table_specs source partNumber = some
      { qname := "\"" ++ source.nspname ++ "\".\"" ++ source.relname ++ "\""
        part := some
          { partNumber := partNumber
            partCount := (source.partsArray.get ⟨partNumber, h2⟩).partCount
            min := (source.partsArray.get ⟨partNumber, h2⟩).min
            max := (source.partsArray.get ⟨partNumber, h2⟩).max
            partKey := source.partKey
            copyQuery :=
              "(SELECT * FROM \"" ++ source.nspname ++ "\".\"" ++
              source.relname ++ "\" WHERE \"" ++ source.partKey ++
              "\" BETWEEN " ++
              intDecimalStr (source.partsArray.get ⟨partNumber, h2⟩).min ++
              " AND " ++
              intDecimalStr (source.partsArray.get ⟨partNumber, h2⟩).max ++
              ")" } } := by
  rw [copydb_init_table_specs, if_pos h1, dif_pos h2]
  simp only [Option.some.injEq, CopyTableDataSpec.mk.injEq,
    CopyTableDataPartSpec.mk.injEq, true_and, and_true]
  have m1 : ∀ x : List Char,
      "(SELECT * FROM ".data ++ ("\"".data ++ x) = "(SELECT * FROM \"".data ++ x :=
    fun x => by rw [← List.append_assoc]; rfl
  have m2 : ∀ x : List Char,
      "\"".data ++ (" WHERE \"".data ++ x) = "\" WHERE \"".data ++ x :=
    fun x => by rw [← List.append_assoc]; rfl
  refine congrArg String.mk ?_
  simp only [data_append, List.append_assoc, m1, m2]

/-- Witness for C5 at the second partition of a two-partition table. -/
theorem C5_partition_copy_query_witness :
    copydb_init_table_specs sampleTable 1 = some
      { qname := "\"" ++ sampleTable.nspname ++ "\".\"" ++ sampleTable.relname ++ "\""
        part := some
          { partNumber := 1
            partCount := (sampleTable.partsArray.get ⟨1, by decide⟩).partCount
            min := (sampleTable.partsArray.get ⟨1, by decide⟩).min
            max := (sampleTable.partsArray.get ⟨1, by decide⟩).max
            partKey := sampleTable.partKey
            copyQuery :=
              "(SELECT * FROM \"" ++ sampleTable.nspname ++ "\".\"" ++
              sampleTable.relname ++ "\" WHERE \"" ++ sampleTable.partKey ++
              "\" BETWEEN " ++
              intDecimalStr (sampleTable.partsArray.get ⟨1, by decide⟩).min ++
              " AND " ++
              intDecimalStr (sampleTable.partsArray.get ⟨1, by decide⟩).max ++
              ")" } } :=
  C5_partition_copy_query sampleTable 1 (by decide) (by decide)

end Pgcopydb
